import Mathlib

/-!
# Verification of the FastAPI Todo service (`backend/main.py`)

Shallow embedding of the in-memory Todo CRUD service. The process-wide
Python dict `todos: dict[str, Todo]` is modelled as an insertion-ordered
association list `List (String × Todo)`: Python 3.7+ dicts preserve
insertion order, assignment to an existing key keeps its position,
assignment to a new key appends, and `del` removes the entry keeping the
order of the rest. Each HTTP handler becomes a function that takes the
store and returns its response together with the (possibly updated) store.
`datetime.now()` and `uuid.uuid4()` are nondeterministic inputs of the
program and are passed as explicit parameters (`now : Nat`,
`todo_id : String`).
-/

namespace TodoApi

/-- Model of Python's `str.lower()` (as applied by the handlers): lowercase
every character. -/
def strLower (s : String) : String := String.mk (s.data.map Char.toLower)

/-- Model of Python's substring test `needle in hay` on strings: the
character sequence of `needle` occurs contiguously inside `hay`. -/
def strContains (hay needle : String) : Bool := decide (needle.data <:+: hay.data)

/-- `fastapi.HTTPException` as raised by the handlers: a status code and a
detail message. -/
structure HTTPException where
  status_code : Nat
  detail : String
deriving DecidableEq, Repr

/-- The one exception value the handlers ever raise:
`HTTPException(status_code=404, detail="Todo not found")`. -/
def notFound : HTTPException := { status_code := 404, detail := "Todo not found" }

/-- The stored record (pydantic model `Todo`): id, title, optional
description, completed flag and the two timestamps. Timestamps are modelled
as `Nat`. -/
structure Todo where
  id : String
  title : String
  description : Option String
  completed : Bool
  created_at : Nat
  updated_at : Nat
deriving DecidableEq, Repr

/-- The create request body (pydantic model `TodoCreate`), after parsing:
`title: str`, `description: Optional[str] = None`,
`completed: bool = False`. -/
structure TodoCreate where
  title : String
  description : Option String := none
  completed : Bool := false
deriving DecidableEq, Repr

/-- Pydantic parsing of a create request: an omitted `description` or
`completed` field takes its declared default (`None` / `False`). -/
def TodoCreate.ofRequest (title : String) (description : Option String)
    (completed : Option Bool) : TodoCreate :=
  { title := title, description := description, completed := completed.getD false }

/-- The update request body (pydantic model `TodoUpdate`). The handler uses
`todo_update.dict(exclude_unset=True)`, which distinguishes a field absent
from the request from a field explicitly supplied; the outer `Option` is
that distinction (`none` = not supplied). For `description` the supplied
value may itself be JSON `null` (the `Todo` model declares it
`Optional[str]`), hence the inner `Option`. Supplied values for `title`
and `completed` are kept at the types the `Todo` model declares for them
(`str` / `bool`). -/
structure TodoUpdate where
  title : Option String := none
  description : Option (Option String) := none
  completed : Option Bool := none
deriving DecidableEq, Repr

/-- The in-memory store `todos : dict[str, Todo]` as an insertion-ordered
association list. -/
abbrev Store := List (String × Todo)

/-- Python `todos[k]` / `k in todos`: first entry with the given key. -/
def Store.lookup : Store → String → Option Todo
  | [], _ => none
  | (k, v) :: rest, key => if k = key then some v else Store.lookup rest key

/-- Python `todos.values()`: the records in insertion order. -/
def Store.values (d : Store) : List Todo := d.map Prod.snd

/-- Python `todos[k] = v`: replace in place if the key is present (keeping
its position), otherwise append. -/
def Store.set (d : Store) (k : String) (v : Todo) : Store :=
  if (Store.lookup d k).isSome then
    d.map (fun p => if p.1 = k then (k, v) else p)
  else d ++ [(k, v)]

/-- Python `del todos[k]`: drop the entry, keeping the order of the rest. -/
def Store.erase (d : Store) (k : String) : Store :=
  d.filter (fun p => p.1 ≠ k)

/-- Python slice index resolution for `l[a:b]` on a list of length `n`:
a negative index counts from the end and both are clamped to `[0, n]`. -/
def sliceIndex (n : Nat) (i : Int) : Nat :=
  if i < 0 then ((n : Int) + i).toNat else min i.toNat n

/-- Python list slice `l[a:b]`. -/
def pySlice {α : Type} (l : List α) (a b : Int) : List α :=
  (l.take (sliceIndex l.length b)).drop (sliceIndex l.length a)

/-- Handler `GET /todos` (`get_todos`): `list(todos.values())[skip : skip + limit]`. -/
def get_todos (skip limit : Int) (d : Store) : List Todo × Store :=
  (pySlice (Store.values d) skip (skip + limit), d)

/-- Handler `POST /todos` (`create_todo`): build the record with a freshly
generated id (passed in, standing for `str(uuid.uuid4())`) and both
timestamps set to `now`, store it under that id, return it. -/
def create_todo (todo : TodoCreate) (todo_id : String) (now : Nat) (d : Store) :
    Todo × Store :=
  let new_todo : Todo :=
    { id := todo_id, title := todo.title, description := todo.description,
      completed := todo.completed, created_at := now, updated_at := now }
  (new_todo, Store.set d todo_id new_todo)

/-- Handler `GET /todos/{todo_id}` (`get_todo`): 404 if absent, otherwise
the stored record. -/
def get_todo (todo_id : String) (d : Store) : Except HTTPException Todo × Store :=
  match Store.lookup d todo_id with
  | none => (Except.error notFound, d)
  | some t => (Except.ok t, d)

/-- The `setattr` loop of `update_todo`: each field present in
`todo_update.dict(exclude_unset=True)` is written onto the record, the
others stay; `updated_at` is then refreshed. `id` is never touched
(`TodoUpdate` has no such field). -/
def applyUpdate (t : Todo) (u : TodoUpdate) (now : Nat) : Todo :=
  { t with
    title := u.title.getD t.title,
    description := u.description.getD t.description,
    completed := u.completed.getD t.completed,
    updated_at := now }

/-- Handler `PUT /todos/{todo_id}` (`update_todo`): 404 if absent;
otherwise mutate the stored record in place (the dict keeps mapping
`todo_id` to the mutated object, at its old position) and return it. -/
def update_todo (todo_id : String) (todo_update : TodoUpdate) (now : Nat)
    (d : Store) : Except HTTPException Todo × Store :=
  match Store.lookup d todo_id with
  | none => (Except.error notFound, d)
  | some existing_todo =>
    let updated := applyUpdate existing_todo todo_update now
    (Except.ok updated, d.map (fun p => if p.1 = todo_id then (todo_id, updated) else p))

/-- Handler `DELETE /todos/{todo_id}` (`delete_todo`): 404 if absent;
otherwise remove the entry and return the confirmation message. -/
def delete_todo (todo_id : String) (d : Store) : Except HTTPException String × Store :=
  match Store.lookup d todo_id with
  | none => (Except.error notFound, d)
  | some _ => (Except.ok "Todo deleted successfully", Store.erase d todo_id)

/-- The match test of `search_todos`, with `query` already lowercased:
`query in todo.title.lower() or (todo.description and query in
todo.description.lower())`. Python truthiness: a `None` or empty
description short-circuits the second disjunct to false. -/
def matchesQuery (query : String) (todo : Todo) : Bool :=
  strContains (strLower todo.title) query ||
    (match todo.description with
     | none => false
     | some dsc => if dsc = "" then false else strContains (strLower dsc) query)

/-- Handler `GET /todos/search` (`search_todos`): lowercase the query, then
a linear scan over `todos.values()` collecting the matches in order. -/
def search_todos (q : String) (d : Store) : List Todo × Store :=
  ((Store.values d).filter (matchesQuery (strLower q)), d)

/-- Spec-side match predicate, following the spec's words for comparison
with `search_todos`: the record matches when its title, or its description
when present, contains the query as a case-insensitive substring. -/
def specMatch (q : String) (todo : Todo) : Bool :=
  strContains (strLower todo.title) (strLower q) ||
    (match todo.description with
     | some dsc => strContains (strLower dsc) (strLower q)
     | none => false)

/-- The error component of a handler response, `none` when it succeeded. -/
def errOf {α : Type} : Except HTTPException α → Option HTTPException
  | Except.error e => some e
  | Except.ok _ => none

/-- Store well-formedness: keys are distinct and every record's `id` field
equals the key it is stored under. -/
def WF (d : Store) : Prop :=
  (d.map Prod.fst).Nodup ∧ ∀ p ∈ d, p.2.id = p.1

instance : DecidablePred WF := fun d => by
  unfold WF; exact instDecidableAnd

/-! ## Store lemmas -/

theorem lookup_none_iff (d : Store) (k : String) :
    Store.lookup d k = none ↔ k ∉ d.map Prod.fst := by
  induction d with
  | nil => simp [Store.lookup]
  | cons p rest ih =>
    obtain ⟨a, b⟩ := p
    by_cases h : a = k <;> simp [Store.lookup, h, ih, Ne.symm]

theorem lookup_some_mem {d : Store} {k : String} {t : Todo}
    (h : Store.lookup d k = some t) : (k, t) ∈ d := by
  induction d with
  | nil => simp [Store.lookup] at h
  | cons p rest ih =>
    obtain ⟨a, b⟩ := p
    by_cases ha : a = k
    · subst ha
      simp [Store.lookup] at h
      simp [h]
    · simp [Store.lookup, ha] at h
      exact List.mem_cons_of_mem _ (ih h)

theorem lookup_replace (d : Store) (k : String) (v : Todo) :
    Store.lookup (d.map (fun p => if p.1 = k then (k, v) else p)) k =
      if (Store.lookup d k).isSome then some v else none := by
  induction d with
  | nil => simp [Store.lookup]
  | cons p rest ih =>
    obtain ⟨a, b⟩ := p
    rw [List.map_cons]
    by_cases h : a = k
    · subst h
      show Store.lookup ((if a = a then (a, v) else (a, b)) :: _) a = _
      rw [if_pos rfl]
      simp [Store.lookup]
    · show Store.lookup ((if a = k then (k, v) else (a, b)) :: _) k = _
      rw [if_neg h]
      show (if a = k then some b else _) = _
      rw [if_neg h, ih]
      show _ = if (if a = k then some b else Store.lookup rest k).isSome then _ else _
      rw [if_neg h]

theorem lookup_append_new {d : Store} {k : String} (v : Todo)
    (h : Store.lookup d k = none) : Store.lookup (d ++ [(k, v)]) k = some v := by
  induction d with
  | nil => simp [Store.lookup]
  | cons p rest ih =>
    obtain ⟨a, b⟩ := p
    by_cases ha : a = k
    · subst ha; simp [Store.lookup] at h
    · simp [Store.lookup, ha] at h ⊢
      exact ih h

theorem lookup_set (d : Store) (k : String) (v : Todo) :
    Store.lookup (Store.set d k v) k = some v := by
  unfold Store.set
  by_cases h : (Store.lookup d k).isSome
  · simp [h, lookup_replace]
  · simp only [h, if_false]
    exact lookup_append_new v (Option.not_isSome_iff_eq_none.mp h)

theorem lookup_erase (d : Store) (k : String) :
    Store.lookup (Store.erase d k) k = none := by
  unfold Store.erase
  induction d with
  | nil => simp [Store.lookup]
  | cons p rest ih =>
    obtain ⟨a, b⟩ := p
    by_cases h : a = k
    · subst h; simpa using ih
    · simpa [Store.lookup, h] using ih

theorem keys_replace (d : Store) (k : String) (v : Todo) :
    (d.map (fun p => if p.1 = k then (k, v) else p)).map Prod.fst =
      d.map Prod.fst := by
  rw [List.map_map]
  refine List.map_congr_left (fun p _ => ?_)
  by_cases h : p.1 = k <;> simp [h]

/-! ## Concrete data for witnesses -/

/-- A concrete stored record used by the witnesses. -/
def t0 : Todo :=
  { id := "a1", title := "Buy milk", description := some "2 liters",
    completed := false, created_at := 0, updated_at := 0 }

/-- A concrete one-record store used by the witnesses. -/
def d0 : Store := [("a1", t0)]

/-- A concrete partial update supplying only `title`. -/
def tu0 : TodoUpdate := { title := some "Buy bread" }

/-! ## Claims -/

/-- C1: for every create request, performing Create and then Get with the id
of the record Create returned succeeds and returns a record with the same
id, title, description, completed, created_at and updated_at fields as the
record Create returned (here: the very same record). -/
theorem create_then_get_roundtrip (req : TodoCreate) (newId : String) (now : Nat)
    (d : Store) :
    get_todo (create_todo req newId now d).1.id (create_todo req newId now d).2 =
      (Except.ok (create_todo req newId now d).1, (create_todo req newId now d).2) := by
  show get_todo newId (create_todo req newId now d).2 = _
  unfold get_todo
  show (match Store.lookup (Store.set d newId _) newId with
        | none => _ | some t => _) = _
  rw [lookup_set]
  rfl

/-- C2: for an id present in the store, Update sets exactly the fields the
request supplies (a field supplied as JSON null counts as supplied), leaves
every unsupplied field (and `created_at`, `id`) unchanged, sets
`updated_at` to the current time, returns the updated record, and a
subsequent Get(id) returns that same record. -/
theorem update_exact_fields (d : Store) (todo_id : String) (tu : TodoUpdate)
    (now : Nat) (t : Todo) (h : Store.lookup d todo_id = some t) :
    (update_todo todo_id tu now d).1 = Except.ok (applyUpdate t tu now) ∧
    (∀ v, tu.title = some v → (applyUpdate t tu now).title = v) ∧
    (tu.title = none → (applyUpdate t tu now).title = t.title) ∧
    (∀ v, tu.description = some v → (applyUpdate t tu now).description = v) ∧
    (tu.description = none → (applyUpdate t tu now).description = t.description) ∧
    (∀ v, tu.completed = some v → (applyUpdate t tu now).completed = v) ∧
    (tu.completed = none → (applyUpdate t tu now).completed = t.completed) ∧
    (applyUpdate t tu now).updated_at = now ∧
    (applyUpdate t tu now).created_at = t.created_at ∧
    (applyUpdate t tu now).id = t.id ∧
    Store.lookup (update_todo todo_id tu now d).2 todo_id =
      some (applyUpdate t tu now) ∧
    get_todo todo_id (update_todo todo_id tu now d).2 =
      (Except.ok (applyUpdate t tu now), (update_todo todo_id tu now d).2) := by
  have hm : update_todo todo_id tu now d =
      (Except.ok (applyUpdate t tu now),
        d.map (fun p => if p.1 = todo_id then (todo_id, applyUpdate t tu now) else p)) := by
    unfold update_todo
    rw [h]
  have hl : Store.lookup (update_todo todo_id tu now d).2 todo_id =
      some (applyUpdate t tu now) := by
    rw [hm, lookup_replace, h]
    rfl
  refine ⟨by rw [hm], fun v hv => by simp [applyUpdate, hv],
    fun hv => by simp [applyUpdate, hv], fun v hv => by simp [applyUpdate, hv],
    fun hv => by simp [applyUpdate, hv], fun v hv => by simp [applyUpdate, hv],
    fun hv => by simp [applyUpdate, hv], rfl, rfl, rfl, hl, ?_⟩
  unfold get_todo
  rw [hl]

/-- C2 witness: the theorem applied to the one-record store `d0`, updating
only the title. -/
theorem update_exact_fields_witness :
    Store.lookup d0 "a1" = some t0 ∧
      (update_todo "a1" tu0 5 d0).1 = Except.ok (applyUpdate t0 tu0 5) :=
  ⟨rfl, (update_exact_fields d0 "a1" tu0 5 t0 rfl).1⟩

/-- C3: Get, Update and Delete fail exactly when the id is absent, and the
only failure they ever produce is the NotFound exception, an HTTP 404 with
a message. -/
theorem notfound_is_only_error (d : Store) (todo_id : String) (tu : TodoUpdate)
    (now : Nat) :
    errOf (get_todo todo_id d).1 =
      (if (Store.lookup d todo_id).isSome then none else some notFound) ∧
    errOf (update_todo todo_id tu now d).1 =
      (if (Store.lookup d todo_id).isSome then none else some notFound) ∧
    errOf (delete_todo todo_id d).1 =
      (if (Store.lookup d todo_id).isSome then none else some notFound) ∧
    notFound.status_code = 404 ∧ notFound.detail = "Todo not found" := by
  refine ⟨?_, ?_, ?_, rfl, rfl⟩ <;>
    cases hm : Store.lookup d todo_id <;>
      simp [get_todo, update_todo, delete_todo, errOf, hm]

/-- C4: deleting a present id removes its record from the store, returns the
confirmation message, and a subsequent Get on the same id fails with
NotFound. -/
theorem delete_then_get_notfound (d : Store) (todo_id : String)
    (h : (Store.lookup d todo_id).isSome) :
    (delete_todo todo_id d).1 = Except.ok "Todo deleted successfully" ∧
    (delete_todo todo_id d).2 = Store.erase d todo_id ∧
    Store.lookup (delete_todo todo_id d).2 todo_id = none ∧
    get_todo todo_id (delete_todo todo_id d).2 =
      (Except.error notFound, (delete_todo todo_id d).2) := by
  obtain ⟨t, ht⟩ := Option.isSome_iff_exists.mp h
  have hm : delete_todo todo_id d =
      (Except.ok "Todo deleted successfully", Store.erase d todo_id) := by
    unfold delete_todo
    rw [ht]
  refine ⟨by rw [hm], by rw [hm], ?_, ?_⟩
  · rw [hm]
    exact lookup_erase d todo_id
  · rw [hm]
    unfold get_todo
    rw [lookup_erase]

/-- C4 witness: deleting the one record of `d0`. -/
theorem delete_then_get_notfound_witness :
    (Store.lookup d0 "a1").isSome = true ∧
      (delete_todo "a1" d0).1 = Except.ok "Todo deleted successfully" :=
  ⟨rfl, (delete_then_get_notfound d0 "a1" rfl).1⟩

/-- C9: on an absent id, the failing Get, Update and Delete return the
NotFound error and leave the store (every record and the insertion order)
exactly as it was. -/
theorem failed_ops_preserve_store (d : Store) (todo_id : String)
    (tu : TodoUpdate) (now : Nat) (h : Store.lookup d todo_id = none) :
    get_todo todo_id d = (Except.error notFound, d) ∧
    update_todo todo_id tu now d = (Except.error notFound, d) ∧
    delete_todo todo_id d = (Except.error notFound, d) := by
  refine ⟨?_, ?_, ?_⟩
  · unfold get_todo
    rw [h]
  · unfold update_todo
    rw [h]
  · unfold delete_todo
    rw [h]

/-- C9 witness: the three failing operations on `d0` with an id not in it. -/
theorem failed_ops_preserve_store_witness :
    Store.lookup d0 "zz" = none ∧ update_todo "zz" tu0 5 d0 = (Except.error notFound, d0) :=
  ⟨rfl, (failed_ops_preserve_store d0 "zz" tu0 5 rfl).2.1⟩

/-- C7: Create stores a record with the given fresh id, both timestamps set
to the current time, and the request's fields; pydantic parsing defaults an
omitted `completed` to false; the new entry is appended under the new id
and the stored record is the returned one. -/
theorem create_fresh_semantics (req : TodoCreate) (newId : String) (now : Nat)
    (d : Store) (title : String) (dsc : Option String)
    (h : Store.lookup d newId = none) :
    (create_todo req newId now d).1.id = newId ∧
    (create_todo req newId now d).1.created_at = now ∧
    (create_todo req newId now d).1.updated_at = now ∧
    (create_todo req newId now d).1.title = req.title ∧
    (create_todo req newId now d).1.description = req.description ∧
    (create_todo req newId now d).1.completed = req.completed ∧
    (TodoCreate.ofRequest title dsc none).completed = false ∧
    (create_todo req newId now d).2 = d ++ [(newId, (create_todo req newId now d).1)] ∧
    Store.lookup (create_todo req newId now d).2 newId =
      some (create_todo req newId now d).1 := by
  have hset : (create_todo req newId now d).2 =
      d ++ [(newId, (create_todo req newId now d).1)] := by
    show Store.set d newId _ = _
    unfold Store.set
    rw [h]
    rfl
  refine ⟨rfl, rfl, rfl, rfl, rfl, rfl, rfl, hset, ?_⟩
  rw [hset]
  exact lookup_append_new _ h

/-- C7 witness: creating a record in `d0` under an id not in it. -/
theorem create_fresh_semantics_witness :
    Store.lookup d0 "b2" = none ∧
      (create_todo { title := "Walk" } "b2" 7 d0).1.created_at = 7 :=
  ⟨rfl, (create_fresh_semantics { title := "Walk" } "b2" 7 d0 "Walk" none rfl).2.1⟩

/-! ## String lemmas for the search claims -/

theorem strContains_empty_needle (hay : String) : strContains hay "" = true := by
  unfold strContains
  exact decide_eq_true List.nil_infix

theorem string_of_data_nil {s : String} (h : s.data = []) : s = "" := by
  cases s
  simp_all

theorem strLower_data (s : String) : (strLower s).data = s.data.map Char.toLower := rfl

theorem strContains_nil_hay (q : String) (h : q ≠ "") :
    strContains (strLower "") (strLower q) = false := by
  unfold strContains
  refine decide_eq_false (fun hc => ?_)
  have h1 : (strLower q).data = [] := by
    simpa [strLower_data] using List.infix_nil.mp hc
  exact h (string_of_data_nil (by simpa [strLower_data, List.map_eq_nil_iff] using h1))

/-- The handler's match test agrees pointwise with the spec's predicate:
the only divergence candidate is an empty-string description (falsy in
Python), and there the query would have to be empty, in which case the
title already matches. -/
theorem matches_eq_spec (q : String) (t : Todo) :
    matchesQuery (strLower q) t = specMatch q t := by
  unfold matchesQuery specMatch
  cases hd : t.description with
  | none => rfl
  | some dsc =>
    by_cases hq : dsc = ""
    · subst hq
      by_cases hqe : q = ""
      · subst hqe
        rw [show strLower "" = "" from rfl, strContains_empty_needle]
        rfl
      · show (strContains (strLower t.title) (strLower q) ||
            (if ("" : String) = "" then false else strContains (strLower "") (strLower q))) =
          (strContains (strLower t.title) (strLower q) ||
            strContains (strLower "") (strLower q))
        rw [if_pos rfl, strContains_nil_hay q hqe]
    · show (strContains (strLower t.title) (strLower q) ||
          (if dsc = "" then false else strContains (strLower dsc) (strLower q))) =
        (strContains (strLower t.title) (strLower q) ||
          strContains (strLower dsc) (strLower q))
      rw [if_neg hq]

/-- C6: Search returns exactly the stored records whose title, or present
description, contains the query as a case-insensitive substring, in
storage iteration order, and leaves the store unchanged. -/
theorem search_matches_spec (q : String) (d : Store) :
    search_todos q d = ((Store.values d).filter (specMatch q), d) := by
  unfold search_todos
  rw [List.filter_congr (fun t _ => matches_eq_spec q t)]

/-- C10: searching with the empty query returns every stored record, in
storage iteration order, including records without a description. -/
theorem search_empty_query_all (d : Store) :
    search_todos "" d = (Store.values d, d) := by
  unfold search_todos
  rw [show strLower "" = "" from rfl]
  rw [List.filter_eq_self.mpr]
  intro t _
  unfold matchesQuery
  rw [strContains_empty_needle]
  rfl

/-! ## Slicing lemmas -/

theorem take_min_length {α : Type} (l : List α) (a : Nat) :
    l.take (min a l.length) = l.take a := by
  rcases le_total a l.length with h | h
  · rw [min_eq_left h]
  · rw [min_eq_right h, List.take_length, List.take_of_length_le h]

theorem pySlice_nonneg {α : Type} (l : List α) (skip limit : Int)
    (hs : 0 ≤ skip) (hl : 0 ≤ limit) :
    pySlice l skip (skip + limit) = (l.drop skip.toNat).take limit.toNat := by
  unfold pySlice sliceIndex
  rw [if_neg (by omega), if_neg (by omega), Int.toNat_add hs hl, take_min_length]
  rcases le_total skip.toNat l.length with h | h
  · rw [min_eq_left h, List.drop_take]
    congr 1
    omega
  · rw [min_eq_right h]
    have h1 : (l.take (skip.toNat + limit.toNat)).length ≤ l.length := by
      rw [List.length_take]
      exact min_le_right _ _
    rw [List.drop_eq_nil_of_le h1, List.drop_eq_nil_of_le h, List.take_nil]

theorem pySlice_length_le {α : Type} (l : List α) (a b : Int) :
    (pySlice l a b).length ≤ l.length := by
  unfold pySlice
  rw [List.length_drop, List.length_take]
  exact le_trans (Nat.sub_le _ _) (min_le_right _ _)

/-- C5: List(skip, limit) does not modify the store, never returns more than
the available records (it is total, clamped by slicing semantics), and for
ordinary nonnegative skip/limit it is exactly the insertion-order record
list restricted to the slice at offset `skip` of length at most `limit`. -/
theorem list_skip_limit_slicing (d : Store) (skip limit : Int) :
    (get_todos skip limit d).2 = d ∧
    (get_todos skip limit d).1.length ≤ (Store.values d).length ∧
    (0 ≤ skip → 0 ≤ limit →
      (get_todos skip limit d).1 =
        ((Store.values d).drop skip.toNat).take limit.toNat) := by
  exact ⟨rfl, pySlice_length_le (Store.values d) skip (skip + limit),
    fun hs hl => pySlice_nonneg (Store.values d) skip limit hs hl⟩

/-- C5 witness: slicing the one-record store with skip 1, limit 2. -/
theorem list_skip_limit_slicing_witness :
    (0 : Int) ≤ 1 ∧
      (get_todos 1 2 d0).1 =
        ((Store.values d0).drop (1 : Int).toNat).take (2 : Int).toNat :=
  ⟨by decide, (list_skip_limit_slicing d0 1 2).2.2 (by decide) (by decide)⟩

/-! ## Invariant lemmas -/

theorem wf_set {d : Store} {k : String} {v : Todo} (hwf : WF d)
    (hid : v.id = k) : WF (Store.set d k v) := by
  unfold Store.set
  by_cases hp : (Store.lookup d k).isSome
  · rw [if_pos hp]
    refine ⟨by rw [keys_replace]; exact hwf.1, ?_⟩
    intro p hp'
    obtain ⟨p', hmem, hfp⟩ := List.mem_map.mp hp'
    by_cases hk : p'.1 = k
    · rw [if_pos hk] at hfp
      rw [← hfp]
      exact hid
    · rw [if_neg hk] at hfp
      rw [← hfp]
      exact hwf.2 p' hmem
  · rw [if_neg hp]
    have hk : k ∉ d.map Prod.fst :=
      (lookup_none_iff d k).mp (Option.not_isSome_iff_eq_none.mp hp)
    constructor
    · rw [List.map_append]
      rw [List.nodup_append]
      exact ⟨hwf.1, List.nodup_singleton k, by simpa [List.disjoint_singleton] using hk⟩
    · intro p hmem
      rcases List.mem_append.mp hmem with hmem | hmem
      · exact hwf.2 p hmem
      · simp only [List.mem_singleton] at hmem
        rw [hmem]
        exact hid

theorem wf_erase {d : Store} (k : String) (hwf : WF d) : WF (Store.erase d k) := by
  unfold Store.erase
  constructor
  · exact hwf.1.sublist ((List.filter_sublist d).map Prod.fst)
  · intro p hmem
    exact hwf.2 p (List.mem_of_mem_filter hmem)

theorem wf_update {d : Store} (todo_id : String) (tu : TodoUpdate) (now : Nat)
    (hwf : WF d) : WF (update_todo todo_id tu now d).2 := by
  unfold update_todo
  cases hm : Store.lookup d todo_id with
  | none => exact hwf
  | some t =>
    have hid : t.id = todo_id := hwf.2 (todo_id, t) (lookup_some_mem hm)
    refine ⟨by rw [keys_replace]; exact hwf.1, ?_⟩
    intro p hp'
    obtain ⟨p', hmem, hfp⟩ := List.mem_map.mp hp'
    by_cases hk : p'.1 = todo_id
    · rw [if_pos hk] at hfp
      rw [← hfp]
      show (applyUpdate t tu now).id = todo_id
      exact hid
    · rw [if_neg hk] at hfp
      rw [← hfp]
      exact hwf.2 p' hmem

/-- C8: the invariant "every record is stored under its own id, and ids are
unique keys" holds in the empty store and is preserved by every operation;
`applyUpdate` (the setattr loop) can never change the id. -/
theorem id_invariant_preserved (d : Store) (req : TodoCreate) (newId : String)
    (now : Nat) (todo_id : String) (tu : TodoUpdate) (q : String)
    (skip limit : Int) (t : Todo) (h : WF d) :
    WF ([] : Store) ∧
    WF (create_todo req newId now d).2 ∧
    WF (update_todo todo_id tu now d).2 ∧
    WF (delete_todo todo_id d).2 ∧
    WF (get_todo todo_id d).2 ∧
    WF (get_todos skip limit d).2 ∧
    WF (search_todos q d).2 ∧
    (applyUpdate t tu now).id = t.id := by
  refine ⟨⟨List.nodup_nil, by simp⟩, wf_set h rfl, wf_update todo_id tu now h,
    ?_, ?_, h, h, rfl⟩
  · unfold delete_todo
    cases hm : Store.lookup d todo_id with
    | none => exact h
    | some t' => exact wf_erase todo_id h
  · unfold get_todo
    cases hm : Store.lookup d todo_id with
    | none => exact h
    | some t' => exact h

/-- C8 witness: the invariant theorem applied to the concrete store `d0`. -/
theorem id_invariant_preserved_witness :
    WF d0 ∧ WF (update_todo "a1" tu0 5 d0).2 :=
  ⟨by decide,
    (id_invariant_preserved d0 { title := "Walk" } "b2" 5 "a1" tu0 "q" 0 10 t0
      (by decide)).2.2.1⟩

end TodoApi
